import Mathlib

/-!
# Shallow embedding of `src/usb3_core/daisho_mod/usb_descrip_gen.c`

The C program is a one-shot batch generator: it builds USB descriptors in two
fixed 1024-byte scratch buffers (`buf_2`, `buf_3`), pushes them to four output
artifacts (USB2 hex text `init_2`, USB2 binary `bin_2`, USB3 hex text
`init_3`, USB3 binary `bin_3`), and prints named offset parameters to a
Verilog header (`descrip_vh`).

Modelling conventions, fixed once here:
* Machine integers are `Nat`; a store into a `u8` cell takes the value
  `% 256` (all buffer cells and stream bytes are `u8` in the C code).
* The five output files are modelled as lists:
  `init2`/`bin2` as lists of byte values (the text file prints exactly the
  byte written to the binary, as two hex digits, so one value models both
  when they coincide; they are kept as two lists because the program writes
  them independently), `init3` as the list of 32-bit values printed with
  `%08X`, `bin3` as the list of raw bytes, and `vh` as the list of printed
  parameter lines (target, width bound, name, value).
* The host of the original tool is a little-endian 32-bit Windows build
  (`WIN32_LEAN_AND_MEAN`, `wchar_t` is 2 bytes, `u32` loads are
  little-endian).  `wchar_t`-dependent code (`mbstowcs` + `memcpy`) is
  modelled with 2-byte wide characters accordingly.
* Reads past the bytes a caller actually initialised (the `write_buf32`
  word-granularity overread, see claim C9) are modelled as reading 0; in the
  concrete run of `main` every such read lands on memory that is zero
  (freshly zeroed buffers), except the two 1-byte string literals passed to
  `write_buf` by `add_set`, whose out-of-bounds tail is unspecified in C.
-/

set_option maxRecDepth 10000

/-- Byte read used to model a `u8` load at `pos + k` from memory declared as
`bytes`; positions beyond the list model out-of-bounds reads and return 0. -/
def readBytes (bytes : List Nat) (pos n : Nat) : List Nat :=
  (List.range n).map fun k => bytes.getD (pos + k) 0 % 256

/-- Mirrors the C swap in `write_buf32` (line 73):
`w = (w&0xff)<<24 | (w&0xff00)<<8 | (w&0xff0000)>>8 | (w&0xff000000)>>24`,
written in div/mod form: the four masked-and-shifted fields occupy disjoint
byte positions, so bitwise-or coincides with addition, `w & 0xff` is
`w % 256`, `(w & 0xff00) >> 8` is `w / 256 % 256`, and so on (for a `u32`
argument `w < 2^32` the two forms agree literally). -/
def bswap32 (w : Nat) : Nat :=
  (w % 256) * 16777216 + (w / 256 % 256) * 65536 + (w / 65536 % 256) * 256
    + (w / 16777216 % 256)

/-- Models `memcpy` into a fixed-extent `u8` buffer: writes the bytes of `src`
into `dst` starting at index `off`; writes past the end of `dst` are
dropped (the C buffers have fixed extent 1024). -/
def storeAt : List Nat → Nat → List Nat → List Nat
  | dst, _, [] => dst
  | [], _, _ => []
  | _ :: dst, 0, s :: src => (s % 256) :: storeAt dst 0 src
  | d :: dst, off + 1, src => d :: storeAt dst off src

/-- One printed line of `usb_descrip.vh`:
`parameter [width:0] DESCR_USB<target>_<name> = 'd<value>;`. -/
structure VhLine where
  target : Nat
  width : Nat
  name : String
  value : Nat
deriving DecidableEq, Repr

/-- The program's global state: the five output artifacts, the offset
counters `i_2`/`i_3`, the group-start snapshots `c_2`/`c_3`, the two scratch
buffers with their walking pointers `a` (into `buf_2`) and `z` (into
`buf_3`), the group byte counters, the configured bit widths and the
persisted byte counters. -/
structure St where
  init2 : List Nat
  bin2 : List Nat
  init3 : List Nat
  bin3 : List Nat
  vh : List VhLine
  i2 : Nat
  i3 : Nat
  c2 : Nat
  c3 : Nat
  buf2 : List Nat
  buf3 : List Nat
  a : Nat
  z : Nat
  bytesPending2 : Nat
  bytesPending3 : Nat
  bitwidth2 : Nat
  bitwidth3 : Nat
  bytesWritten2 : Nat
  bytesWritten3 : Nat
deriving Repr

/-- The state at program start: zeroed 1024-byte buffers (`buf_2[1024] =
{0,}`), empty files, zero counters. -/
def initSt : St where
  init2 := []
  bin2 := []
  init3 := []
  bin3 := []
  vh := []
  i2 := 0
  i3 := 0
  c2 := 0
  c3 := 0
  buf2 := List.replicate 1024 0
  buf3 := List.replicate 1024 0
  a := 0
  z := 0
  bytesPending2 := 0
  bytesPending3 := 0
  bitwidth2 := 0
  bitwidth3 := 0
  bytesWritten2 := 0
  bytesWritten3 := 0

/-- Models `*a++ = v` for the `buf_2` pointer `a`: store `v` as a `u8` at index
`a` (a store beyond the 1024-byte extent is out of bounds in C and is
dropped here; the concrete run never reaches it) and advance `a`. -/
def pushA (s : St) (v : Nat) : St :=
  { s with buf2 := s.buf2.set s.a (v % 256), a := s.a + 1 }

/-- Models `*z++ = v` for the `buf_3` pointer `z`. -/
def pushZ (s : St) (v : Nat) : St :=
  { s with buf3 := s.buf3.set s.z (v % 256), z := s.z + 1 }

/-- Models `write_buf8(buf, size)` (lines 58-66): for each of the `size` bytes at
`buf`, print it as two hex digits to `init_2`, write it to `bin_2`, and
increment `bytes_written_2`. -/
def write_buf8 (s : St) (bytes : List Nat) (size : Nat) : St :=
  { s with
    init2 := s.init2 ++ readBytes bytes 0 size
    bin2 := s.bin2 ++ readBytes bytes 0 size
    bytesWritten2 := s.bytesWritten2 + size }

/-- The loop body of `write_buf32`, iterated `n` times starting at byte
position `pos`: load the little-endian `u32` `w` at `pos`, print the
byte-swapped `w` to `init_3` with `%08X`, write the 4 raw bytes to `bin_3`,
and add 4 to `bytes_written_3`. -/
def write_buf32_go (s : St) (bytes : List Nat) (pos : Nat) : Nat → St
  | 0 => s
  | n + 1 =>
    let b0 := bytes.getD pos 0 % 256
    let b1 := bytes.getD (pos + 1) 0 % 256
    let b2 := bytes.getD (pos + 2) 0 % 256
    let b3 := bytes.getD (pos + 3) 0 % 256
    let w := b0 + 256 * b1 + 65536 * b2 + 16777216 * b3
    write_buf32_go
      { s with
        init3 := s.init3 ++ [bswap32 w]
        bin3 := s.bin3 ++ [b0, b1, b2, b3]
        bytesWritten3 := s.bytesWritten3 + 4 }
      bytes (pos + 4) n

/-- Models `write_buf32(buf, size)` (lines 68-79): `for(i = 0; i < size; i += 4)`
runs `⌈size/4⌉` iterations, each consuming 4 bytes — one byte beyond a
non-multiple-of-4 `size` up to the next word boundary. -/
def write_buf32 (s : St) (bytes : List Nat) (size : Nat) : St :=
  write_buf32_go s bytes 0 ((size + 3) / 4)

/-- Models `write_buf(buf, size)` (lines 81-85): push the same memory through both
streams. -/
def write_buf (s : St) (bytes : List Nat) (size : Nat) : St :=
  write_buf32 (write_buf8 s bytes size) bytes size

/-- Models `print_offsets(name, for_usb2, for_usb3)` (lines 87-91): print
`parameter [bitwidth-1:0] DESCR_USB2_name = 'd i_2;` when `for_usb2`, then
the USB3 line with `i_3` when `for_usb3`. -/
def print_offsets (s : St) (name : String) (for_usb2 for_usb3 : Bool) : St :=
  { s with
    vh := s.vh
      ++ (if for_usb2 then [⟨2, s.bitwidth2 - 1, name, s.i2⟩] else [])
      ++ (if for_usb3 then [⟨3, s.bitwidth3 - 1, name, s.i3⟩] else []) }

/-- Models `add_device_qual` (lines 93-112): builds the 10-byte Device Qualifier
in `buf_2` and pushes it to the USB2 stream only. -/
def add_device_qual (s : St) (usb_spec class_code subclass protocol_code
    max_size_ep0 num_possible_config : Nat) : St :=
  let s := { s with a := 0 }
  let s := print_offsets s "DEVICE_QUAL" true false
  let s := pushA s 0x0A
  let s := pushA s 0x06
  let s := pushA s (if usb_spec == 0x300 then 0x210 % 256 else 0x200 % 256)
  let s := pushA s (if usb_spec == 0x300 then 0x210 / 256 else 0x200 / 256)
  let s := pushA s class_code
  let s := pushA s subclass
  let s := pushA s protocol_code
  let s := pushA s max_size_ep0
  let s := pushA s num_possible_config
  let s := pushA s 0
  write_buf8 s s.buf2 0xA

/-- The body of `add_device_descr` (lines 114-150) up to and including
`write_buf(buf_2, 10)`; the C function then tail-calls `add_device_qual`
(line 152), which is kept as a separate composition step so that the state
at the `DEVICE_QUAL` offset-recording instant is addressable. -/
def add_device_descr_pre (s : St) (usb_spec class_code subclass protocol_code
    max_size_ep0 vid pid dev_num idx_mfg idx_prod idx_serial
    num_possible_config : Nat) : St :=
  let s := { s with a := 0 }
  let s := print_offsets s "DEVICE" true true
  -- usb spec 2.10
  let s := pushA s 0x12
  let s := pushA s 0x01
  let s := pushA s (if usb_spec == 0x300 then 0x210 % 256 else 0x200 % 256)
  let s := pushA s (if usb_spec == 0x300 then 0x210 / 256 else 0x200 / 256)
  let s := write_buf8 s s.buf2 4
  let s := { s with a := 2 }
  -- usb spec 3.00
  let s := pushA s (0x300 % 256)
  let s := pushA s (0x300 / 256)
  let s := write_buf32 s s.buf2 4
  let s := { s with a := 0 }
  let s := pushA s class_code
  let s := pushA s subclass
  let s := pushA s protocol_code
  let s := pushA s max_size_ep0
  let s := write_buf8 s s.buf2 4
  let s := { s with a := s.a - 1 }
  let s := pushA s 0x09 -- USB3: 512 bytes fixed EP0
  let s := write_buf32 s s.buf2 4
  let s := { s with a := 0 }
  let s := pushA s (vid % 256)
  let s := pushA s (vid / 256)
  let s := pushA s (pid % 256)
  let s := pushA s (pid / 256)
  let s := pushA s (dev_num % 256)
  let s := pushA s (dev_num / 256)
  let s := pushA s idx_mfg
  let s := pushA s idx_prod
  let s := pushA s idx_serial
  let s := pushA s num_possible_config
  write_buf s s.buf2 10

/-- Models `add_device_descr` (lines 114-159): the 18-byte Device descriptor to
both streams (with the USB2/USB3 field splices), then `add_device_qual`. -/
def add_device_descr (s : St) (usb_spec class_code subclass protocol_code
    max_size_ep0 vid pid dev_num idx_mfg idx_prod idx_serial
    num_possible_config : Nat) : St :=
  add_device_qual
    (add_device_descr_pre s usb_spec class_code subclass protocol_code
      max_size_ep0 vid pid dev_num idx_mfg idx_prod idx_serial
      num_possible_config)
    usb_spec class_code subclass protocol_code max_size_ep0
    num_possible_config

/-- Models `add_config_start` (lines 161-202): Configuration header (total length
left as the `0xffff` placeholder) and primary Interface descriptor into
`buf_2`, snapshot into `buf_3`, pointers and pending counters reset. -/
def add_config_start (s : St) (usb_spec attrib power_ma num_endpoints : Nat) :
    St :=
  let s := { s with a := 0, z := 0, c2 := s.i2, c3 := s.i3 }
  let s := print_offsets s "CONFIG" true true
  let s := { s with bytesPending2 := 0, bytesPending3 := 0 }
  -- write Config descriptor
  let s := pushA s 0x09
  let s := pushA s 0x02
  let s := pushA s (0xffff % 256) -- total length, must be overwritten later
  let s := pushA s (0xffff / 256) -- total length, must be overwritten later
  let s := pushA s 0x01
  let s := pushA s 0x01
  let s := pushA s 0x00
  let s := pushA s attrib
  let s := pushA s (if usb_spec == 0x300 then power_ma / 8 else power_ma / 2)
  let s := { s with bytesPending2 := s.bytesPending2 + 0x9,
                    bytesPending3 := s.bytesPending3 + 0x9 }
  -- write Interface descriptor
  let s := pushA s 0x09
  let s := pushA s 0x04
  let s := pushA s 0x00
  let s := pushA s 0x00
  let s := pushA s num_endpoints
  let s := pushA s 0xFF
  let s := pushA s 0xFF
  let s := pushA s 0xFF
  let s := pushA s 0x02
  let s := { s with bytesPending2 := s.bytesPending2 + 0x9,
                    bytesPending3 := s.bytesPending3 + 0x9 }
  -- memcpy(buf_3, buf_2, bytes_pending_2); z += bytes_pending_3
  { s with buf3 := storeAt s.buf3 0 (s.buf2.take s.bytesPending2),
           z := s.z + s.bytesPending3 }

/-- Models `add_endpoint` (lines 204-236): 7-byte Endpoint descriptor into
`buf_2`, copied into `buf_3` with the max-packet field patched to 1024,
followed in `buf_3` only by the 6-byte SuperSpeed companion descriptor. -/
def add_endpoint (s : St) (idx dir attrib max_pkt interval max_burst
    attrib_3 bytes_per_interval : Nat) : St :=
  let c := s.a
  -- write Endpoint descriptor
  let s := pushA s 0x07
  let s := pushA s 0x05
  -- `idx | (dir ? 0x80 : 0x0)`: the direction bit (bit 7) is disjoint from
  -- the 4-bit endpoint number, so the bitwise-or is written as addition
  let s := pushA s (idx + (if dir ≠ 0 then 0x80 else 0x0))
  let s := pushA s attrib
  let s := pushA s (max_pkt % 256)
  let s := pushA s (max_pkt / 256)
  let s := pushA s interval
  let s := { s with bytesPending2 := s.bytesPending2 + 0x7,
                    bytesPending3 := s.bytesPending3 + 0x7 }
  -- copy this endpoint over to USB3: memcpy(z, c, 0x7); z += 0x7
  let s := { s with buf3 := storeAt s.buf3 s.z ((s.buf2.drop c).take 0x7),
                    z := s.z + 0x7 }
  -- patch max packet size to 1024: *(z-2) = 0x04; *(z-3) = 0x00
  let s := { s with buf3 := s.buf3.set (s.z - 2) 0x04 }
  let s := { s with buf3 := s.buf3.set (s.z - 3) 0x00 }
  -- add companion descriptor only to USB3 buffer
  let s := pushZ s 0x06
  let s := pushZ s 0x30
  -- `max_burst - 1` in `u8` arithmetic: wraps modulo 256
  let s := pushZ s (max_burst + 255)
  let s := pushZ s attrib_3
  let s := pushZ s (bytes_per_interval % 256)
  let s := pushZ s (bytes_per_interval / 256)
  { s with bytesPending3 := s.bytesPending3 + 0x6 }

/-- Models `add_config_end` (lines 239-267): final alternate-setting Interface
descriptor into both buffers, 2-byte total-length backpatch at offset 2 of
each buffer (`memcpy(&buf[2], &bytes_pending, 2)`, little-endian host), and
the whole group pushed to each stream. -/
def add_config_end (s : St) : St :=
  let c := s.a
  -- add alternate interface
  let s := pushA s 0x09
  let s := pushA s 0x04
  let s := pushA s 0x00
  let s := pushA s 0x01
  let s := pushA s 0x0
  let s := pushA s 0xFF
  let s := pushA s 0xFF
  let s := pushA s 0xFF
  let s := pushA s 0x02
  let s := { s with bytesPending2 := s.bytesPending2 + 0x9,
                    bytesPending3 := s.bytesPending3 + 0x9 }
  -- copy this interface over to USB3: memcpy(z, c, 0x9); z += 0x9
  let s := { s with buf3 := storeAt s.buf3 s.z ((s.buf2.drop c).take 0x9),
                    z := s.z + 0x9 }
  -- patch total descriptor lengths (low two bytes of the u32 counters)
  let s := { s with buf2 := (s.buf2.set 2 (s.bytesPending2 % 256)).set 3
                              (s.bytesPending2 / 256 % 256) }
  let s := { s with buf3 := (s.buf3.set 2 (s.bytesPending3 % 256)).set 3
                              (s.bytesPending3 / 256 % 256) }
  let s := write_buf8 s s.buf2 s.bytesPending2
  write_buf32 s s.buf3 s.bytesPending3

/-- Models `add_bos` (lines 269-303): the fixed 22-byte BOS aggregate built in
`buf_3` and pushed to the USB3 stream only, with size `z - buf_3`. -/
def add_bos (s : St) : St :=
  let s := { s with z := 0 }
  let s := print_offsets s "BOS    " false true
  let s := pushZ s 0x05
  let s := pushZ s 0x0F
  let s := pushZ s 0x16
  let s := pushZ s 0x00
  let s := pushZ s 0x02
  let s := pushZ s 0x07
  let s := pushZ s 0x10
  let s := pushZ s 0x02
  let s := pushZ s 0x02
  let s := pushZ s 0x00
  let s := pushZ s 0x00
  let s := pushZ s 0x00
  let s := pushZ s 0x0A
  let s := pushZ s 0x10
  let s := pushZ s 0x03
  let s := pushZ s 0x00
  let s := pushZ s 0x0E
  let s := pushZ s 0x00
  let s := pushZ s 0x02
  let s := pushZ s 0x08
  let s := pushZ s 0x64
  let s := pushZ s 0x00
  write_buf32 s s.buf3 (s.z - 0)

/-- The wide-character image that `mbstowcs` + `memcpy` produce on the
tool's Win32 host (2-byte `wchar_t`): each single-byte character becomes
its value in the low byte of a 2-byte unit, high byte zero. -/
def wideBytes (str : List Nat) : List Nat :=
  str.flatMap fun c => [c % 256, 0]

/-- Models `add_string(idx, str)` (lines 305-330): `str` is the byte list of the C
string (up to its terminating NUL).  Index 0 copies 2 raw language-code
bytes; indices ≥ 1 wide-encode the text; length byte `strlen*2+2` (4 for
index 0); `buf_2` is zeroed first. -/
def add_string (s : St) (idx : Nat) (str : List Nat) : St :=
  let len := if idx == 0 then 4 else str.length * 2 + 2
  let s := { s with buf2 := List.replicate 1024 0, a := 0 }
  let s := print_offsets s ("STRING" ++ toString idx) true true
  let w_str := if idx > 0 then wideBytes str else (str.take 2).map (· % 256)
  let s := pushA s len
  let s := pushA s 0x03
  let s := { s with buf2 := storeAt s.buf2 s.a (w_str.take (len - 2)) }
  write_buf s s.buf2 len

/-- Models `add_set` (lines 332-338): two single-byte marker descriptors pushed
through both streams.  The string literals `"\x00"` / `"\x01"` are 2-byte
objects; `write_buf32` consumes 4 bytes from them (see claim C9), the 2
bytes past the literal being unspecified in C and modelled as 0 here. -/
def add_set (s : St) : St :=
  let s := print_offsets s "CONFUNSET" true true
  let s := write_buf s [0x00, 0x00] 1
  let s := print_offsets s "CONFSET" true true
  write_buf s [0x01, 0x00] 1

/-- The byte values of an ASCII string literal (excluding the NUL). -/
def strBytes (s : String) : List Nat :=
  s.data.map Char.toNat

/-- Models `main` (lines 340-427) before the padding loops, with the two BRAM
address bit widths as parameters (the source fixes them to 8 and 7 at lines
355-356): the fixed descriptor topology, the `CONFIG_LEN`/`BOS_LEN`
print hacks, and the `EOF` entry. -/
def mainPrePad (bw2 bw3 : Nat) : St :=
  let s := { initSt with i2 := 0, i3 := 0, bitwidth2 := bw2, bitwidth3 := bw3 }
  let s := add_device_descr s 0x300 0xFF 0xFF 0xFF 64 0x1D50 0x605A 0x1
    1 2 3 1
  let s := add_config_start s 0x300 0x80 500 2
  let s := add_endpoint s 1 1 2 512 0x1 16 0x00 0
  let s := add_endpoint s 2 0 2 512 0x1 16 0x00 0
  let s := add_config_end s
  -- hack to print out CONFIG length
  let temp1 := s.i2
  let temp2 := s.i3
  let s := { s with i2 := s.bytesPending2, i3 := s.bytesPending3 }
  let s := print_offsets s "CONFIG_LEN" true true
  let s := { s with i2 := temp1, i3 := temp2 }
  let s := add_bos s
  -- hack to print out BOS length
  let temp2 := s.i3
  let s := { s with i3 := s.z }
  let s := print_offsets s "BOS_LEN" false true
  let s := { s with i3 := temp2 }
  let s := add_string s 0 [0x09, 0x04]
  let s := add_string s 1 (strBytes "Great Scott Gadgets")
  let s := add_string s 2 (strBytes "Daisho USB test")
  let s := add_string s 3 (strBytes "DAISHOUSB000")
  let s := add_set s
  print_offsets s "EOF     " true true

/-- Guarded-fuel form of the USB2 padding loop: every iteration of the C
loop increments `bytes_written_2` by exactly 1, so the loop performs at most
`2^bitwidth_2 - bytes_written_2` iterations; running the guarded body that
many times computes the `while` loop exactly (the guard, not the fuel, ends
the loop). -/
def pad2_go : St → Nat → St
  | s, 0 => s
  | s, n + 1 =>
    if s.bytesWritten2 < 2 ^ s.bitwidth2 then pad2_go (write_buf8 s [0, 0] 1) n
    else s

/-- The USB2 padding loop (line 430):
`while(bytes_written_2 < pow(2, bitwidth_2)) write_buf8("\0", 1);`
(the `"\0"` literal is the 2-byte object `{0, 0}`). -/
def pad2 (s : St) : St :=
  pad2_go s (2 ^ s.bitwidth2 - s.bytesWritten2)

/-- Guarded-fuel form of the USB3 padding loop: every iteration adds exactly
4 to `bytes_written_3`, so `2^bitwidth_3*4 - bytes_written_3` iterations of
the guarded body are more than enough; the guard ends the loop. -/
def pad3_go : St → Nat → St
  | s, 0 => s
  | s, n + 1 =>
    if s.bytesWritten3 < 2 ^ s.bitwidth3 * 4 then
      pad3_go (write_buf32 s [0, 0, 0, 0, 0] 1) n
    else s

/-- The USB3 padding loop (line 431):
`while(bytes_written_3 < pow(2, bitwidth_3)*4) write_buf32((u32 *)"\0\0\0\0", 1);`
(the `"\0\0\0\0"` literal is the 5-byte object `{0, 0, 0, 0, 0}`). -/
def pad3 (s : St) : St :=
  pad3_go s (2 ^ s.bitwidth3 * 4 - s.bytesWritten3)

/-- The whole run of `main` with the bit widths as parameters. -/
def mainWith (bw2 bw3 : Nat) : St :=
  pad3 (pad2 (mainPrePad bw2 bw3))

/-- The run of `main` exactly as compiled: `bitwidth_2 = 8`,
`bitwidth_3 = 7` (lines 355-356). -/
def mainRun : St :=
  mainWith 8 7

/-- The little-endian `u32` load performed by `w = *buf` in `write_buf32`,
at byte position `pos`. -/
def leWordAt (bytes : List Nat) (pos : Nat) : Nat :=
  bytes.getD pos 0 % 256 + 256 * (bytes.getD (pos + 1) 0 % 256)
    + 65536 * (bytes.getD (pos + 2) 0 % 256)
    + 16777216 * (bytes.getD (pos + 3) 0 % 256)

/-- The raw bytes that `n` iterations of the `write_buf32` loop starting at
byte position `pos` write to `bin_3`. -/
def wordBytes (bytes : List Nat) : Nat → Nat → List Nat
  | _, 0 => []
  | pos, n + 1 =>
    bytes.getD pos 0 % 256 :: bytes.getD (pos + 1) 0 % 256 ::
      bytes.getD (pos + 2) 0 % 256 :: bytes.getD (pos + 3) 0 % 256 ::
      wordBytes bytes (pos + 4) n

/-- The swapped word values that `n` iterations of the `write_buf32` loop
starting at byte position `pos` print to `init_3`. -/
def wordVals (bytes : List Nat) : Nat → Nat → List Nat
  | _, 0 => []
  | pos, n + 1 => bswap32 (leWordAt bytes pos) :: wordVals bytes (pos + 4) n

/-- The WordStream consistency invariant between the USB3 text artifact and
the USB3 binary artifact: the binary holds 4 bytes per printed word, all
binary values are bytes, every printed hex value is the byte-order reversal
of the little-endian binary word at the same word address, and reversing the
printed value recovers the binary word (round trip). -/
def WSInv (s : St) : Prop :=
  s.bin3.length = 4 * s.init3.length
  ∧ (∀ b ∈ s.bin3, b < 256)
  ∧ ∀ j < s.init3.length,
      s.init3.getD j 0 = bswap32 (leWordAt s.bin3 (4 * j))
      ∧ bswap32 (s.init3.getD j 0) = leWordAt s.bin3 (4 * j)

instance (s : St) : Decidable (WSInv s) := by
  unfold WSInv
  infer_instance

/-- The arguments of one `add_endpoint` call. -/
structure EpArgs where
  idx : Nat
  dir : Nat
  attrib : Nat
  max_pkt : Nat
  interval : Nat
  max_burst : Nat
  attrib_3 : Nat
  bytes_per_interval : Nat

/-- A sequence of `add_endpoint` calls. -/
def runEndpoints (s : St) (eps : List EpArgs) : St :=
  eps.foldl
    (fun t e => add_endpoint t e.idx e.dir e.attrib e.max_pkt e.interval
      e.max_burst e.attrib_3 e.bytes_per_interval)
    s

/-- One whole descriptor group as the driver performs it:
`add_config_start`, a list of `add_endpoint` calls, `add_config_end`. -/
def configGroup (s : St) (usb_spec attrib power_ma num_endpoints : Nat)
    (eps : List EpArgs) : St :=
  add_config_end
    (runEndpoints (add_config_start s usb_spec attrib power_ma num_endpoints)
      eps)

/-! ## Basic lemmas about the list and buffer primitives -/

theorem length_storeAt :
    ∀ (dst : List Nat) (off : Nat) (src : List Nat),
      (storeAt dst off src).length = dst.length := by
  intro dst
  induction dst with
  | nil => intro off src; cases src <;> simp [storeAt]
  | cons d dst ih =>
    intro off src
    cases src with
    | nil => simp [storeAt]
    | cons s src =>
      cases off with
      | zero => simp [storeAt, ih]
      | succ off => simp [storeAt, ih]

theorem getD_set_self :
    ∀ (l : List Nat) (i v d : Nat), i < l.length → (l.set i v).getD i d = v := by
  intro l
  induction l with
  | nil => simp
  | cons a l ih =>
    intro i v d h
    cases i with
    | zero => rfl
    | succ i => simpa using ih i v d (by simpa using h)

theorem getD_set_ne :
    ∀ (l : List Nat) (i j v d : Nat), i ≠ j →
      (l.set i v).getD j d = l.getD j d := by
  intro l
  induction l with
  | nil => simp
  | cons a l ih =>
    intro i j v d h
    cases i with
    | zero =>
      cases j with
      | zero => exact absurd rfl h
      | succ j => rfl
    | succ i =>
      cases j with
      | zero => rfl
      | succ j => simpa using ih i j v d (by omega)

theorem storeAt_eq :
    ∀ (dst : List Nat) (off : Nat) (src : List Nat),
      off + src.length ≤ dst.length →
      storeAt dst off src =
        dst.take off ++ src.map (· % 256) ++ dst.drop (off + src.length) := by
  intro dst
  induction dst with
  | nil =>
    intro off src h
    have : src = [] := by
      cases src with
      | nil => rfl
      | cons s src => simp at h
    subst this
    simp [storeAt]
  | cons d dst ih =>
    intro off src h
    cases src with
    | nil => simp [storeAt]
    | cons s src =>
      cases off with
      | zero =>
        have h' : 0 + src.length ≤ dst.length := by simp at h ⊢; omega
        simp [storeAt, ih 0 src h']
      | succ off =>
        have h' : off + (s :: src).length ≤ dst.length := by
          simp only [List.length_cons] at h ⊢; omega
        have := ih off (s :: src) h'
        simp only [storeAt, this, List.take_succ_cons, List.length_cons]
        have harith : off + 1 + (src.length + 1) = (off + (src.length + 1)) + 1 := by
          omega
        simp [harith, List.drop_succ_cons]

theorem length_readBytes (bytes : List Nat) (pos n : Nat) :
    (readBytes bytes pos n).length = n := by
  simp [readBytes]

theorem getD_readBytes (bytes : List Nat) (pos n k d : Nat) (h : k < n) :
    (readBytes bytes pos n).getD k d = bytes.getD (pos + k) 0 % 256 := by
  rw [List.getD_eq_getElem _ _ (by simpa [readBytes] using h)]
  simp [readBytes]

theorem readBytes_eq_take (bytes : List Nat) (n : Nat) (h : n ≤ bytes.length) :
    readBytes bytes 0 n = (bytes.take n).map (· % 256) := by
  apply List.ext_getElem
  · simp [readBytes]; omega
  · intro i h1 h2
    have hi : i < n := by simpa [readBytes] using h1
    have hib : i < bytes.length := by omega
    simp [readBytes, List.getElem_map, List.getElem_take,
      List.getD_eq_getElem _ _ hib, List.getElem?_eq_getElem hib]

theorem length_wordBytes (bytes : List Nat) :
    ∀ (n pos : Nat), (wordBytes bytes pos n).length = 4 * n := by
  intro n
  induction n with
  | zero => intro pos; simp [wordBytes]
  | succ n ih => intro pos; simp [wordBytes, ih]; omega

theorem length_wordVals (bytes : List Nat) :
    ∀ (n pos : Nat), (wordVals bytes pos n).length = n := by
  intro n
  induction n with
  | zero => intro pos; simp [wordVals]
  | succ n ih => intro pos; simp [wordVals, ih]

theorem getD_wordBytes (bytes : List Nat) :
    ∀ (n pos j d : Nat), j < 4 * n →
      (wordBytes bytes pos n).getD j d = bytes.getD (pos + j) 0 % 256 := by
  intro n
  induction n with
  | zero => intro pos j d h; omega
  | succ n ih =>
    intro pos j d h
    match j with
    | 0 => rfl
    | 1 => rfl
    | 2 => rfl
    | 3 => rfl
    | (j + 4) =>
      have := ih (pos + 4) j d (by omega)
      simpa [wordBytes, show pos + 4 + j = pos + (j + 4) by omega] using this

theorem getD_wordVals (bytes : List Nat) :
    ∀ (n pos j : Nat) (d : Nat), j < n →
      (wordVals bytes pos n).getD j d = bswap32 (leWordAt bytes (pos + 4 * j)) := by
  intro n
  induction n with
  | zero => intro pos j d h; omega
  | succ n ih =>
    intro pos j d h
    cases j with
    | zero => simp [wordVals]
    | succ j =>
      have := ih (pos + 4) j d (by omega)
      simpa [wordVals, show pos + 4 + 4 * j = pos + 4 * (j + 1) by omega]
        using this

theorem mem_wordBytes_lt (bytes : List Nat) :
    ∀ (n pos b : Nat), b ∈ wordBytes bytes pos n → b < 256 := by
  intro n
  induction n with
  | zero => intro pos b h; simp [wordBytes] at h
  | succ n ih =>
    intro pos b h
    simp only [wordBytes, List.mem_cons] at h
    rcases h with h | h | h | h | h
    all_goals first
      | (subst h; exact Nat.mod_lt _ (by omega))
      | exact ih (pos + 4) b h

/-- The state equation for the `write_buf32` loop: `n` iterations append
the word values to `init_3`, the raw bytes to `bin_3`, add `4*n` to
`bytes_written_3`, and touch nothing else. -/
theorem write_buf32_go_spec :
    ∀ (n : Nat) (s : St) (bytes : List Nat) (pos : Nat),
      write_buf32_go s bytes pos n =
        { s with
          init3 := s.init3 ++ wordVals bytes pos n
          bin3 := s.bin3 ++ wordBytes bytes pos n
          bytesWritten3 := s.bytesWritten3 + 4 * n } := by
  intro n
  induction n with
  | zero => intro s bytes pos; simp [write_buf32_go, wordVals, wordBytes]
  | succ n ih =>
    intro s bytes pos
    rw [write_buf32_go, ih]
    simp [wordVals, wordBytes, leWordAt, List.append_assoc]
    omega

/-- The state equation for `write_buf32(buf, size)`. -/
theorem write_buf32_spec (s : St) (bytes : List Nat) (size : Nat) :
    write_buf32 s bytes size =
      { s with
        init3 := s.init3 ++ wordVals bytes 0 ((size + 3) / 4)
        bin3 := s.bin3 ++ wordBytes bytes 0 ((size + 3) / 4)
        bytesWritten3 := s.bytesWritten3 + 4 * ((size + 3) / 4) } :=
  write_buf32_go_spec _ s bytes 0

/-! ## Arithmetic facts about the byte swap -/

theorem leWordAt_lt (bytes : List Nat) (pos : Nat) :
    leWordAt bytes pos < 4294967296 := by
  unfold leWordAt
  omega

theorem bswap32_bytes (b0 b1 b2 b3 : Nat) (h0 : b0 < 256) (h1 : b1 < 256)
    (h2 : b2 < 256) (h3 : b3 < 256) :
    bswap32 (b0 + 256 * b1 + 65536 * b2 + 16777216 * b3) =
      b3 + 256 * b2 + 65536 * b1 + 16777216 * b0 := by
  unfold bswap32
  omega

theorem bswap32_bswap32 (w : Nat) (h : w < 4294967296) :
    bswap32 (bswap32 w) = w := by
  have hb3 : w / 16777216 < 256 := by omega
  have hw : w % 256 + 256 * (w / 256 % 256) + 65536 * (w / 65536 % 256)
      + 16777216 * (w / 16777216) = w := by omega
  rw [← hw,
    bswap32_bytes _ _ _ _ (by omega) (by omega) (by omega) hb3,
    bswap32_bytes _ _ _ _ hb3 (by omega) (by omega) (by omega)]

theorem leWordAt_append_left (l m : List Nat) (pos : Nat)
    (h : pos + 4 ≤ l.length) : leWordAt (l ++ m) pos = leWordAt l pos := by
  unfold leWordAt
  rw [List.getD_append _ _ _ _ (by omega), List.getD_append _ _ _ _ (by omega),
    List.getD_append _ _ _ _ (by omega), List.getD_append _ _ _ _ (by omega)]

theorem leWordAt_append_right (l m : List Nat) (pos : Nat)
    (h : l.length ≤ pos) : leWordAt (l ++ m) pos = leWordAt m (pos - l.length) := by
  unfold leWordAt
  rw [List.getD_append_right _ _ _ _ (by omega),
    List.getD_append_right _ _ _ _ (by omega),
    List.getD_append_right _ _ _ _ (by omega),
    List.getD_append_right _ _ _ _ (by omega),
    show pos + 1 - l.length = pos - l.length + 1 by omega,
    show pos + 2 - l.length = pos - l.length + 2 by omega,
    show pos + 3 - l.length = pos - l.length + 3 by omega]

theorem leWordAt_wordBytes (bytes : List Nat) (n pos t : Nat) (h : t < n) :
    leWordAt (wordBytes bytes pos n) (4 * t) = leWordAt bytes (pos + 4 * t) := by
  unfold leWordAt
  rw [getD_wordBytes bytes n pos (4 * t) 0 (by omega),
    getD_wordBytes bytes n pos (4 * t + 1) 0 (by omega),
    getD_wordBytes bytes n pos (4 * t + 2) 0 (by omega),
    getD_wordBytes bytes n pos (4 * t + 3) 0 (by omega),
    show pos + (4 * t + 1) = pos + 4 * t + 1 by omega,
    show pos + (4 * t + 2) = pos + 4 * t + 2 by omega,
    show pos + (4 * t + 3) = pos + 4 * t + 3 by omega]
  omega

/-- C3: pushing any memory through `write_buf32` preserves the WordStream
invariant: every appended hex-text word is the byte-order reversal of the
4 binary bytes at the same word address, and reversing the hex-text value
recovers the binary word exactly (round trip). -/
theorem claim_C3_hex_binary_reversal (s : St) (bytes : List Nat) (size : Nat)
    (h : WSInv s) : WSInv (write_buf32 s bytes size) := by
  obtain ⟨hlen, hmem, hrel⟩ := h
  rw [write_buf32_spec]
  set n := (size + 3) / 4 with hn
  refine ⟨?_, ?_, ?_⟩
  · simp [length_wordBytes, length_wordVals, hlen]; omega
  · intro b hb
    rcases List.mem_append.mp hb with hb | hb
    · exact hmem b hb
    · exact mem_wordBytes_lt bytes n 0 b hb
  · intro j hj
    simp only [List.length_append, length_wordVals] at hj
    by_cases hcase : j < s.init3.length
    · have hb : ∀ i : Nat, i < 4 →
          (s.bin3 ++ wordBytes bytes 0 n).getD (4 * j + i) 0 =
            s.bin3.getD (4 * j + i) 0 := by
        intro i hi
        exact List.getD_append _ _ _ _ (by omega)
      have hw : leWordAt (s.bin3 ++ wordBytes bytes 0 n) (4 * j) =
          leWordAt s.bin3 (4 * j) :=
        leWordAt_append_left _ _ _ (by omega)
      have hv : (s.init3 ++ wordVals bytes 0 n).getD j 0 = s.init3.getD j 0 :=
        List.getD_append _ _ _ _ hcase
      rw [hv, hw]
      exact hrel j hcase
    · have ht : j - s.init3.length < n := by omega
      have hv : (s.init3 ++ wordVals bytes 0 n).getD j 0 =
          bswap32 (leWordAt bytes (4 * (j - s.init3.length))) := by
        rw [List.getD_append_right _ _ _ _ (by omega)]
        rw [getD_wordVals bytes n 0 (j - s.init3.length) 0 ht]
        simp
      have hw : leWordAt (s.bin3 ++ wordBytes bytes 0 n) (4 * j) =
          leWordAt bytes (4 * (j - s.init3.length)) := by
        rw [leWordAt_append_right _ _ _ (by omega),
          show 4 * j - s.bin3.length = 4 * (j - s.init3.length) by omega,
          leWordAt_wordBytes bytes n 0 (j - s.init3.length) ht]
        simp
      rw [hv, hw]
      exact ⟨rfl, bswap32_bswap32 _ (leWordAt_lt _ _)⟩

/-! ## The padding loops -/

theorem pad2_go_spec :
    ∀ (n : Nat) (s : St), 2 ^ s.bitwidth2 ≤ s.bytesWritten2 + n →
      (pad2_go s n).bytesWritten2 = max s.bytesWritten2 (2 ^ s.bitwidth2)
      ∧ (pad2_go s n).bytesWritten3 = s.bytesWritten3
      ∧ (pad2_go s n).bitwidth2 = s.bitwidth2
      ∧ (pad2_go s n).bitwidth3 = s.bitwidth3 := by
  intro n
  induction n with
  | zero =>
    intro s h
    refine ⟨?_, rfl, rfl, rfl⟩
    show s.bytesWritten2 = max s.bytesWritten2 (2 ^ s.bitwidth2)
    omega
  | succ n ih =>
    intro s h
    rw [pad2_go]
    split
    · rename_i hlt
      have step : (write_buf8 s [0, 0] 1).bytesWritten2 = s.bytesWritten2 + 1 ∧
          (write_buf8 s [0, 0] 1).bytesWritten3 = s.bytesWritten3 ∧
          (write_buf8 s [0, 0] 1).bitwidth2 = s.bitwidth2 ∧
          (write_buf8 s [0, 0] 1).bitwidth3 = s.bitwidth3 := by
        simp [write_buf8]
      obtain ⟨h1, h2, h3, h4⟩ := ih (write_buf8 s [0, 0] 1)
        (by rw [step.1, step.2.2.1]; omega)
      rw [h1, h2, h3, h4, step.1, step.2.1, step.2.2.1, step.2.2.2]
      refine ⟨?_, rfl, rfl, rfl⟩
      omega
    · refine ⟨?_, rfl, rfl, rfl⟩
      omega

theorem pad2_spec (s : St) :
    (pad2 s).bytesWritten2 = max s.bytesWritten2 (2 ^ s.bitwidth2)
    ∧ (pad2 s).bytesWritten3 = s.bytesWritten3
    ∧ (pad2 s).bitwidth2 = s.bitwidth2
    ∧ (pad2 s).bitwidth3 = s.bitwidth3 :=
  pad2_go_spec _ s (by omega)

theorem pad3_go_spec :
    ∀ (n : Nat) (s : St), 2 ^ s.bitwidth3 * 4 ≤ s.bytesWritten3 + 4 * n →
      (pad3_go s n).bytesWritten2 = s.bytesWritten2
      ∧ s.bytesWritten3 ≤ (pad3_go s n).bytesWritten3
      ∧ (4 ∣ s.bytesWritten3 → s.bytesWritten3 ≤ 2 ^ s.bitwidth3 * 4 →
          (pad3_go s n).bytesWritten3 = 2 ^ s.bitwidth3 * 4) := by
  intro n
  induction n with
  | zero =>
    intro s h
    refine ⟨rfl, Nat.le_refl _, fun _ h2 => ?_⟩
    show s.bytesWritten3 = 2 ^ s.bitwidth3 * 4
    omega
  | succ n ih =>
    intro s h
    rw [pad3_go]
    split
    · rename_i hlt
      have step : (write_buf32 s [0, 0, 0, 0, 0] 1).bytesWritten3 =
            s.bytesWritten3 + 4 ∧
          (write_buf32 s [0, 0, 0, 0, 0] 1).bytesWritten2 = s.bytesWritten2 ∧
          (write_buf32 s [0, 0, 0, 0, 0] 1).bitwidth3 = s.bitwidth3 := by
        rw [write_buf32_spec]
        exact ⟨rfl, rfl, rfl⟩
      obtain ⟨h1, h2, h3⟩ := ih (write_buf32 s [0, 0, 0, 0, 0] 1)
        (by rw [step.1, step.2.2]; omega)
      refine ⟨by rw [h1, step.2.1], by omega, ?_⟩
      intro hdvd hle
      have hdvd4 : (4 : Nat) ∣ 2 ^ s.bitwidth3 * 4 :=
        ⟨2 ^ s.bitwidth3, by ring⟩
      have := h3 (by rw [step.1]; omega)
        (by rw [step.1, step.2.2]; omega)
      rw [this, step.2.2]
    · exact ⟨rfl, Nat.le_refl _, fun _ h2 => by
        show s.bytesWritten3 = 2 ^ s.bitwidth3 * 4
        omega⟩

theorem pad3_spec (s : St) :
    (pad3 s).bytesWritten2 = s.bytesWritten2
    ∧ s.bytesWritten3 ≤ (pad3 s).bytesWritten3
    ∧ (4 ∣ s.bytesWritten3 → s.bytesWritten3 ≤ 2 ^ s.bitwidth3 * 4 →
        (pad3 s).bytesWritten3 = 2 ^ s.bitwidth3 * 4) :=
  pad3_go_spec _ s (by omega)

/-! ## The configuration group (open / endpoints / close) -/

theorem add_endpoint_fields (s : St) (e1 e2 e3 e4 e5 e6 e7 e8 : Nat) :
    (add_endpoint s e1 e2 e3 e4 e5 e6 e7 e8).a = s.a + 7
    ∧ (add_endpoint s e1 e2 e3 e4 e5 e6 e7 e8).z = s.z + 13
    ∧ (add_endpoint s e1 e2 e3 e4 e5 e6 e7 e8).bytesPending2 =
        s.bytesPending2 + 7
    ∧ (add_endpoint s e1 e2 e3 e4 e5 e6 e7 e8).bytesPending3 =
        s.bytesPending3 + 13
    ∧ (add_endpoint s e1 e2 e3 e4 e5 e6 e7 e8).buf2.length = s.buf2.length
    ∧ (add_endpoint s e1 e2 e3 e4 e5 e6 e7 e8).buf3.length = s.buf3.length
    ∧ (add_endpoint s e1 e2 e3 e4 e5 e6 e7 e8).bin2 = s.bin2
    ∧ (add_endpoint s e1 e2 e3 e4 e5 e6 e7 e8).bin3 = s.bin3
    ∧ (add_endpoint s e1 e2 e3 e4 e5 e6 e7 e8).init2 = s.init2
    ∧ (add_endpoint s e1 e2 e3 e4 e5 e6 e7 e8).init3 = s.init3
    ∧ (add_endpoint s e1 e2 e3 e4 e5 e6 e7 e8).bytesWritten2 = s.bytesWritten2
    ∧ (add_endpoint s e1 e2 e3 e4 e5 e6 e7 e8).bytesWritten3 = s.bytesWritten3
    ∧ (add_endpoint s e1 e2 e3 e4 e5 e6 e7 e8).vh = s.vh := by
  simp [add_endpoint, pushA, pushZ, length_storeAt, List.length_set]

theorem runEndpoints_fields (eps : List EpArgs) :
    ∀ (s : St),
      (runEndpoints s eps).a = s.a + 7 * eps.length
      ∧ (runEndpoints s eps).z = s.z + 13 * eps.length
      ∧ (runEndpoints s eps).bytesPending2 =
          s.bytesPending2 + 7 * eps.length
      ∧ (runEndpoints s eps).bytesPending3 =
          s.bytesPending3 + 13 * eps.length
      ∧ (runEndpoints s eps).buf2.length = s.buf2.length
      ∧ (runEndpoints s eps).buf3.length = s.buf3.length
      ∧ (runEndpoints s eps).bin2 = s.bin2
      ∧ (runEndpoints s eps).bin3 = s.bin3
      ∧ (runEndpoints s eps).init2 = s.init2
      ∧ (runEndpoints s eps).init3 = s.init3
      ∧ (runEndpoints s eps).bytesWritten2 = s.bytesWritten2
      ∧ (runEndpoints s eps).bytesWritten3 = s.bytesWritten3 := by
  induction eps with
  | nil => intro s; simp [runEndpoints]
  | cons e eps ih =>
    intro s
    have hstep := add_endpoint_fields s e.idx e.dir e.attrib e.max_pkt
      e.interval e.max_burst e.attrib_3 e.bytes_per_interval
    have hrest := ih (add_endpoint s e.idx e.dir e.attrib e.max_pkt
      e.interval e.max_burst e.attrib_3 e.bytes_per_interval)
    have hfold : runEndpoints s (e :: eps) =
        runEndpoints (add_endpoint s e.idx e.dir e.attrib e.max_pkt
          e.interval e.max_burst e.attrib_3 e.bytes_per_interval) eps := by
      simp only [runEndpoints, List.foldl_cons]
    rw [hfold]
    obtain ⟨a1, a2, a3, a4, a5, a6, a7, a8, a9, a10, a11, a12, a13⟩ := hstep
    obtain ⟨b1, b2, b3, b4, b5, b6, b7, b8, b9, b10, b11, b12⟩ := hrest
    refine ⟨?_, ?_, ?_, ?_, ?_, ?_, ?_, ?_, ?_, ?_, ?_, ?_⟩ <;>
      simp only [List.length_cons, b1, b2, b3, b4, b5, b6, b7, b8, b9, b10,
        b11, b12, a1, a2, a3, a4, a5, a6, a7, a8, a9, a10, a11, a12] <;>
      omega

theorem add_config_start_fields (s : St) (u1 u2 u3 u4 : Nat) :
    (add_config_start s u1 u2 u3 u4).a = 18
    ∧ (add_config_start s u1 u2 u3 u4).z = 18
    ∧ (add_config_start s u1 u2 u3 u4).bytesPending2 = 18
    ∧ (add_config_start s u1 u2 u3 u4).bytesPending3 = 18
    ∧ (add_config_start s u1 u2 u3 u4).buf2.length = s.buf2.length
    ∧ (add_config_start s u1 u2 u3 u4).buf3.length = s.buf3.length
    ∧ (add_config_start s u1 u2 u3 u4).bin2 = s.bin2
    ∧ (add_config_start s u1 u2 u3 u4).bin3 = s.bin3
    ∧ (add_config_start s u1 u2 u3 u4).init2 = s.init2
    ∧ (add_config_start s u1 u2 u3 u4).init3 = s.init3
    ∧ (add_config_start s u1 u2 u3 u4).bytesWritten2 = s.bytesWritten2
    ∧ (add_config_start s u1 u2 u3 u4).bytesWritten3 = s.bytesWritten3 := by
  simp [add_config_start, print_offsets, pushA, length_storeAt,
    List.length_set]

/-- C2: For every descriptor group, the 2-byte total-length field
backpatched at the group's starting offset in each stream equals the byte
count accumulated for that stream between group-open and group-close
(`18 + 7k + 9` for USB2, `18 + 13k + 9` for USB3 with `k` endpoints; the
two differ by the `6k` USB3-only companion bytes); the USB2 stream receives
exactly that many bytes, the USB3 stream that count rounded up to a word
multiple. -/
theorem claim_C2_group_length_backpatch (s : St)
    (usb_spec attrib power_ma num_endpoints : Nat) (eps : List EpArgs)
    (hb2 : s.buf2.length = 1024) (hb3 : s.buf3.length = 1024)
    (hk : eps.length ≤ 76) :
    (configGroup s usb_spec attrib power_ma num_endpoints eps).bin2.getD
          (s.bin2.length + 2) 0
        + 256 * (configGroup s usb_spec attrib power_ma num_endpoints
            eps).bin2.getD (s.bin2.length + 3) 0
      = 27 + 7 * eps.length
    ∧ (configGroup s usb_spec attrib power_ma num_endpoints eps).bin3.getD
          (s.bin3.length + 2) 0
        + 256 * (configGroup s usb_spec attrib power_ma num_endpoints
            eps).bin3.getD (s.bin3.length + 3) 0
      = 27 + 13 * eps.length
    ∧ (configGroup s usb_spec attrib power_ma num_endpoints
        eps).bytesPending2 = 27 + 7 * eps.length
    ∧ (configGroup s usb_spec attrib power_ma num_endpoints
        eps).bytesPending3 = 27 + 13 * eps.length
    ∧ (configGroup s usb_spec attrib power_ma num_endpoints eps).bin2.length
      = s.bin2.length + (27 + 7 * eps.length)
    ∧ (configGroup s usb_spec attrib power_ma num_endpoints
        eps).bytesWritten2 = s.bytesWritten2 + (27 + 7 * eps.length)
    ∧ (configGroup s usb_spec attrib power_ma num_endpoints eps).bin3.length
      = s.bin3.length + 4 * ((27 + 13 * eps.length + 3) / 4)
    ∧ (configGroup s usb_spec attrib power_ma num_endpoints
        eps).bytesWritten3 = s.bytesWritten3 + 4 * ((27 + 13 * eps.length + 3) / 4)
    ∧ (27 + 13 * eps.length) - (27 + 7 * eps.length) = 6 * eps.length := by
  obtain ⟨c1, c2, c3, c4, c5, c6, c7, c8, c9, c10, c11, c12⟩ :=
    add_config_start_fields s usb_spec attrib power_ma num_endpoints
  obtain ⟨r1, r2, r3, r4, r5, r6, r7, r8, r9, r10, r11, r12⟩ :=
    runEndpoints_fields eps (add_config_start s usb_spec attrib power_ma
      num_endpoints)
  set u := runEndpoints (add_config_start s usb_spec attrib power_ma
    num_endpoints) eps with hu
  have hua : u.bytesPending2 = 18 + 7 * eps.length := by rw [r3, c3]
  have huz : u.bytesPending3 = 18 + 13 * eps.length := by rw [r4, c4]
  have hul2 : u.buf2.length = 1024 := by rw [r5, c5, hb2]
  have hul3 : u.buf3.length = 1024 := by rw [r6, c6, hb3]
  have hubin2 : u.bin2 = s.bin2 := by rw [r7, c7]
  have hubin3 : u.bin3 = s.bin3 := by rw [r8, c8]
  have hlbin2 : u.bin2.length = s.bin2.length := by rw [hubin2]
  have hlbin3 : u.bin3.length = s.bin3.length := by rw [hubin3]
  have hubw2 : u.bytesWritten2 = s.bytesWritten2 := by rw [r11, c11]
  have hubw3 : u.bytesWritten3 = s.bytesWritten3 := by rw [r12, c12]
  have hcg : configGroup s usb_spec attrib power_ma num_endpoints eps =
      add_config_end u := rfl
  rw [hcg]
  -- field-level description of `add_config_end u`
  simp only [add_config_end, pushA, pushZ, write_buf8, write_buf32_spec]
  simp only [List.length_set, length_storeAt, List.length_append,
    length_readBytes, length_wordBytes]
  refine ⟨?_, ?_, by omega, by omega, by omega, by omega, by omega,
    by omega, by omega⟩
  · -- USB2 backpatched field
    rw [hubin2,
      List.getD_append_right _ _ _ _ (by omega),
      List.getD_append_right _ _ _ _ (by omega),
      show s.bin2.length + 2 - s.bin2.length = 2 by omega,
      show s.bin2.length + 3 - s.bin2.length = 3 by omega,
      getD_readBytes _ _ _ _ _ (by omega),
      getD_readBytes _ _ _ _ _ (by omega),
      show (0 : Nat) + 2 = 2 by omega, show (0 : Nat) + 3 = 3 by omega,
      getD_set_self _ _ _ _ (by
        simp only [List.length_set, length_storeAt]; omega),
      getD_set_ne _ _ _ _ _ (by omega),
      getD_set_self _ _ _ _ (by
        simp only [List.length_set, length_storeAt]; omega)]
    simp only [Nat.mod_mod_of_dvd _ (dvd_refl 256)]
    omega
  · -- USB3 backpatched field
    rw [hubin3,
      List.getD_append_right _ _ _ _ (by omega),
      List.getD_append_right _ _ _ _ (by omega),
      show s.bin3.length + 2 - s.bin3.length = 2 by omega,
      show s.bin3.length + 3 - s.bin3.length = 3 by omega,
      getD_wordBytes _ _ _ _ _ (by omega),
      getD_wordBytes _ _ _ _ _ (by omega),
      show (0 : Nat) + 2 = 2 by omega, show (0 : Nat) + 3 = 3 by omega,
      getD_set_self _ _ _ _ (by
        simp only [List.length_set, length_storeAt]; omega),
      getD_set_ne _ _ _ _ _ (by omega),
      getD_set_self _ _ _ _ (by
        simp only [List.length_set, length_storeAt]; omega)]
    simp only [Nat.mod_mod_of_dvd _ (dvd_refl 256)]
    omega

/-! ## If-form index calculus, used to evaluate single bytes symbolically -/

theorem getD_set_if (l : List Nat) (i j v d : Nat) :
    (l.set i v).getD j d =
      if i = j ∧ j < l.length then v else l.getD j d := by
  by_cases hij : i = j
  · subst hij
    by_cases hlen : i < l.length
    · simp only [hlen, and_true, if_pos rfl, true_and]
      exact getD_set_self _ _ _ _ hlen
    · rw [List.set_eq_of_length_le (by omega)]
      simp [hlen]
  · simp only [hij, false_and, if_neg, not_false_iff]
    exact getD_set_ne _ _ _ _ _ hij

theorem getD_append_if (l m : List Nat) (j d : Nat) :
    (l ++ m).getD j d =
      if j < l.length then l.getD j d else m.getD (j - l.length) d := by
  by_cases h : j < l.length
  · simp only [h, if_pos]
    exact List.getD_append _ _ _ _ h
  · simp only [h, if_neg, not_false_iff]
    exact List.getD_append_right _ _ _ _ (by omega)

theorem getD_readBytes_if (bytes : List Nat) (pos n k d : Nat) :
    (readBytes bytes pos n).getD k d =
      if k < n then bytes.getD (pos + k) 0 % 256 else d := by
  by_cases h : k < n
  · simp only [h, if_pos]
    exact getD_readBytes bytes pos n k d h
  · simp only [h, if_neg, not_false_iff]
    exact List.getD_eq_default _ _ (by simp [length_readBytes]; omega)

theorem getD_wordBytes_if (bytes : List Nat) (n pos j d : Nat) :
    (wordBytes bytes pos n).getD j d =
      if j < 4 * n then bytes.getD (pos + j) 0 % 256 else d := by
  by_cases h : j < 4 * n
  · simp only [h, if_pos]
    exact getD_wordBytes bytes n pos j d h
  · simp only [h, if_neg, not_false_iff]
    exact List.getD_eq_default _ _ (by rw [length_wordBytes]; omega)

theorem getD_replicate_zero (n j d : Nat) :
    (List.replicate n (0 : Nat)).getD j d = if j < n then 0 else d := by
  by_cases h : j < n
  · rw [List.getD_eq_getElem _ _ (by simpa using h)]
    simp [h]
  · rw [List.getD_eq_default _ _ (by simpa using h)]
    simp [h]

/-! ## Claim C5: device descriptor field comparison between targets -/

set_option maxHeartbeats 2000000 in
/-- C5: the USB2 and USB3 device-descriptor encodings agree byte for byte on
all fields except bcdUSB (bytes 2-3, fixed `00 03` on the USB3 target) and
bMaxPacketSize0 (byte 7, fixed 9 on the USB3 target, the caller's
`max_size_ep0` verbatim on the USB2 target); the USB2 stream receives the
18-byte descriptor plus the 10-byte qualifier, the USB3 stream 20 bytes (the
18-byte descriptor word-padded). -/
theorem claim_C5_device_descriptor (usb_spec class_code subclass
    protocol_code max_size_ep0 vid pid dev_num idx_mfg idx_prod idx_serial
    num_possible_config : Nat) (hm : max_size_ep0 < 256) :
    (∀ i, i < 18 → i ≠ 2 → i ≠ 3 → i ≠ 7 →
      (add_device_descr initSt usb_spec class_code subclass protocol_code
          max_size_ep0 vid pid dev_num idx_mfg idx_prod idx_serial
          num_possible_config).bin2.getD i 0 =
        (add_device_descr initSt usb_spec class_code subclass protocol_code
          max_size_ep0 vid pid dev_num idx_mfg idx_prod idx_serial
          num_possible_config).bin3.getD i 0)
    ∧ (add_device_descr initSt usb_spec class_code subclass protocol_code
        max_size_ep0 vid pid dev_num idx_mfg idx_prod idx_serial
        num_possible_config).bin3.getD 2 0 = 0x00
    ∧ (add_device_descr initSt usb_spec class_code subclass protocol_code
        max_size_ep0 vid pid dev_num idx_mfg idx_prod idx_serial
        num_possible_config).bin3.getD 3 0 = 0x03
    ∧ (add_device_descr initSt usb_spec class_code subclass protocol_code
        max_size_ep0 vid pid dev_num idx_mfg idx_prod idx_serial
        num_possible_config).bin3.getD 7 0 = 9
    ∧ (add_device_descr initSt usb_spec class_code subclass protocol_code
        max_size_ep0 vid pid dev_num idx_mfg idx_prod idx_serial
        num_possible_config).bin2.getD 7 0 = max_size_ep0
    ∧ (add_device_descr initSt usb_spec class_code subclass protocol_code
        max_size_ep0 vid pid dev_num idx_mfg idx_prod idx_serial
        num_possible_config).bin2.length = 28
    ∧ (add_device_descr initSt usb_spec class_code subclass protocol_code
        max_size_ep0 vid pid dev_num idx_mfg idx_prod idx_serial
        num_possible_config).bin3.length = 20 := by
  refine ⟨?_, ?_, ?_, ?_, ?_, ?_, ?_⟩
  · intro i hi h2 h3 h7
    interval_cases i <;>
      first
        | omega
        | (simp only [add_device_descr, add_device_descr_pre,
            add_device_qual, pushA, write_buf8, write_buf, write_buf32_spec,
            print_offsets, initSt, getD_append_if, getD_readBytes_if,
            getD_wordBytes_if, getD_set_if, getD_replicate_zero,
            length_readBytes, length_wordBytes, List.length_set,
            List.length_replicate, List.length_append,
            Nat.mod_mod_of_dvd _ (dvd_refl 256), false_and, true_and,
            and_true, and_false, if_true, if_false, Nat.add_zero,
            Nat.zero_add, List.length_nil, beq_iff_eq]
           norm_num)
  all_goals
    simp only [add_device_descr, add_device_descr_pre, add_device_qual,
      pushA, write_buf8, write_buf, write_buf32_spec, print_offsets, initSt,
      getD_append_if, getD_readBytes_if, getD_wordBytes_if, getD_set_if,
      getD_replicate_zero, length_readBytes, length_wordBytes,
      List.length_set, List.length_replicate, List.length_append,
      Nat.mod_mod_of_dvd _ (dvd_refl 256), false_and, true_and, and_true,
      and_false, if_true, if_false, Nat.add_zero, Nat.zero_add,
      List.length_nil, beq_iff_eq]
  all_goals norm_num
  omega

/-- Witness for C5 at the driver's arguments (`max_size_ep0 = 64`). -/
theorem claim_C5_witness :
    (64 : Nat) < 256
    ∧ (add_device_descr initSt 0x300 0xFF 0xFF 0xFF 64 0x1D50 0x605A 0x1
        1 2 3 1).bin2.getD 7 0 = 64
    ∧ (add_device_descr initSt 0x300 0xFF 0xFF 0xFF 64 0x1D50 0x605A 0x1
        1 2 3 1).bin3.getD 7 0 = 9 :=
  ⟨by decide,
    (claim_C5_device_descriptor 0x300 0xFF 0xFF 0xFF 64 0x1D50 0x605A 0x1
      1 2 3 1 (by decide)).2.2.2.2.1,
    (claim_C5_device_descriptor 0x300 0xFF 0xFF 0xFF 64 0x1D50 0x605A 0x1
      1 2 3 1 (by decide)).2.2.2.1⟩

/-! ## Claim C4: the bcdUSB field on the USB2 target -/

/-- Counterexample to C4 as stated: with requested `usb_spec = 0x200` (the
commented alternative in `main`, line 361) the USB2 target's bcdUSB field is
0x0200, not 0x0210, in both the device descriptor (bytes 2-3) and the
device qualifier (bytes 20-21). -/
theorem claim_C4_counterexample :
    ¬((add_device_descr initSt 0x200 0xFF 0xFF 0xFF 64 0x1D50 0x605A 0x1
          1 2 3 1).bin2.getD 2 0
        + 256 * (add_device_descr initSt 0x200 0xFF 0xFF 0xFF 64 0x1D50
            0x605A 0x1 1 2 3 1).bin2.getD 3 0 = 0x210
      ∧ (add_device_descr initSt 0x200 0xFF 0xFF 0xFF 64 0x1D50 0x605A 0x1
            1 2 3 1).bin2.getD 20 0
          + 256 * (add_device_descr initSt 0x200 0xFF 0xFF 0xFF 64 0x1D50
              0x605A 0x1 1 2 3 1).bin2.getD 21 0 = 0x210) := by
  decide

set_option maxHeartbeats 2000000 in
/-- C4 as amended: the USB2 target's bcdUSB field (device descriptor bytes
2-3 and device-qualifier bytes 20-21) is 0x0210 exactly when the requested
`usb_spec` is 0x300 — as in the program's fixed topology — and 0x0200 for
every other requested value. -/
theorem claim_C4_amended_bcdusb (usb_spec class_code subclass protocol_code
    max_size_ep0 vid pid dev_num idx_mfg idx_prod idx_serial
    num_possible_config : Nat) :
    (add_device_descr initSt usb_spec class_code subclass protocol_code
        max_size_ep0 vid pid dev_num idx_mfg idx_prod idx_serial
        num_possible_config).bin2.getD 2 0
      + 256 * (add_device_descr initSt usb_spec class_code subclass
          protocol_code max_size_ep0 vid pid dev_num idx_mfg idx_prod
          idx_serial num_possible_config).bin2.getD 3 0
      = (if usb_spec = 0x300 then 0x210 else 0x200)
    ∧ (add_device_descr initSt usb_spec class_code subclass protocol_code
          max_size_ep0 vid pid dev_num idx_mfg idx_prod idx_serial
          num_possible_config).bin2.getD 20 0
        + 256 * (add_device_descr initSt usb_spec class_code subclass
            protocol_code max_size_ep0 vid pid dev_num idx_mfg idx_prod
            idx_serial num_possible_config).bin2.getD 21 0
      = (if usb_spec = 0x300 then 0x210 else 0x200) := by
  by_cases hs : usb_spec = 0x300 <;>
    refine ⟨?_, ?_⟩ <;>
      (simp only [hs, add_device_descr, add_device_descr_pre,
        add_device_qual, pushA, write_buf8, write_buf, write_buf32_spec,
        print_offsets, initSt, getD_append_if, getD_readBytes_if,
        getD_wordBytes_if, getD_set_if, getD_replicate_zero,
        length_readBytes, length_wordBytes, List.length_set,
        List.length_replicate, List.length_append,
        Nat.mod_mod_of_dvd _ (dvd_refl 256), false_and, true_and, and_true,
        and_false, if_true, if_false, Nat.add_zero, Nat.zero_add,
        List.length_nil, beq_iff_eq]
       norm_num)

/-- Witness for C3: the invariant holds for the empty streams and is kept
by a concrete 4-byte push. -/
theorem claim_C3_witness :
    WSInv initSt ∧ WSInv (write_buf32 initSt [1, 2, 3, 4] 4) :=
  ⟨by decide, claim_C3_hex_binary_reversal initSt [1, 2, 3, 4] 4 (by decide)⟩

/-! ## Claim C6: end-of-run padding -/

/-- Counterexample to C6 as stated: with bit widths 1 (≥ 1 as the claim
allows), the run has already persisted more than `2^1` bytes (and more than
`2^1*4`), the padding loops do not run, and the final totals equal the
pre-padding totals, not the claimed powers of two. -/
theorem claim_C6_counterexample :
    (1 : Nat) ≥ 1
    ∧ (mainWith 1 1).bytesWritten2 ≠ 2 ^ 1
    ∧ (mainWith 1 1).bytesWritten3 ≠ 2 ^ 1 * 4 := by
  decide

/-- C6 as amended: padding never reduces either stream's total bytes
persisted, and whenever the pre-padding totals do not exceed the padding
targets (with the USB3 total a word multiple, as every `write_buf32` call
guarantees) — in particular for the compiled bit widths 8 and 7 — the
post-padding totals are exactly `2^bitwidth_2` and `2^bitwidth_3 * 4`. -/
theorem claim_C6_amended_padding (s : St) :
    s.bytesWritten2 ≤ (pad3 (pad2 s)).bytesWritten2
    ∧ s.bytesWritten3 ≤ (pad3 (pad2 s)).bytesWritten3
    ∧ (s.bytesWritten2 ≤ 2 ^ s.bitwidth2 →
        (pad3 (pad2 s)).bytesWritten2 = 2 ^ s.bitwidth2)
    ∧ (4 ∣ s.bytesWritten3 → s.bytesWritten3 ≤ 2 ^ s.bitwidth3 * 4 →
        (pad3 (pad2 s)).bytesWritten3 = 2 ^ s.bitwidth3 * 4) := by
  obtain ⟨p1, p2, p3, p4⟩ := pad2_spec s
  obtain ⟨q1, q2, q3⟩ := pad3_spec (pad2 s)
  refine ⟨?_, ?_, ?_, ?_⟩
  · rw [q1, p1]
    exact Nat.le_max_left _ _
  · omega
  · intro h
    rw [q1, p1]
    exact Nat.max_eq_right h
  · intro hd hle
    have hq := q3 (by rw [p2]; exact hd) (by rw [p2, p4]; exact hle)
    rw [hq, p4]

/-- Witness for C6 at the compiled run: bit widths 8 and 7, pre-padding
totals 173 and 212. -/
theorem claim_C6_witness :
    (mainPrePad 8 7).bytesWritten2 ≤ 2 ^ (mainPrePad 8 7).bitwidth2
    ∧ 4 ∣ (mainPrePad 8 7).bytesWritten3
    ∧ mainRun.bytesWritten2 = 2 ^ (mainPrePad 8 7).bitwidth2
    ∧ mainRun.bytesWritten3 = 2 ^ (mainPrePad 8 7).bitwidth3 * 4 :=
  ⟨by decide, by decide,
    (claim_C6_amended_padding (mainPrePad 8 7)).2.2.1 (by decide),
    (claim_C6_amended_padding (mainPrePad 8 7)).2.2.2 (by decide)
      (by decide)⟩

/-! ## Claim C9: word-granularity of the USB3 stream -/

/-- C9: every `write_buf32(buf, size)` call appends exactly
`4*⌈size/4⌉` bytes to the USB3 binary stream and adds the same amount to
`bytes_written_3`; when `size` is not a multiple of 4 this consumes 1-3
bytes beyond the declared size (each odd-size push of the fixed run — 10,
53, 22, 26 and the 1-byte markers — rounds up to 12, 56, 24, 28, 4), for
the 1-byte markers 4 bytes are consumed from a 2-byte string literal, and
the USB3 total stays a multiple of 4 (it is one at the end of the run). -/
theorem claim_C9_word_granularity (s : St) (bytes : List Nat) (size : Nat) :
    (write_buf32 s bytes size).bin3.length =
      s.bin3.length + 4 * ((size + 3) / 4)
    ∧ (write_buf32 s bytes size).bytesWritten3 =
        s.bytesWritten3 + 4 * ((size + 3) / 4)
    ∧ size ≤ 4 * ((size + 3) / 4)
    ∧ 4 * ((size + 3) / 4) ≤ size + 3
    ∧ (¬ 4 ∣ size → size + 1 ≤ 4 * ((size + 3) / 4))
    ∧ (4 ∣ size → 4 * ((size + 3) / 4) = size)
    ∧ (4 ∣ s.bytesWritten3 → 4 ∣ (write_buf32 s bytes size).bytesWritten3)
    ∧ 4 * ((10 + 3) / 4) = 12 ∧ 4 * ((53 + 3) / 4) = 56
    ∧ 4 * ((22 + 3) / 4) = 24 ∧ 4 * ((26 + 3) / 4) = 28
    ∧ 4 * ((1 + 3) / 4) = 4 ∧ 2 < 4 * ((1 + 3) / 4)
    ∧ 4 ∣ mainRun.bytesWritten3 := by
  have h1 : (write_buf32 s bytes size).bin3.length =
      s.bin3.length + 4 * ((size + 3) / 4) := by
    rw [write_buf32_spec]
    simp [length_wordBytes]
  have h2 : (write_buf32 s bytes size).bytesWritten3 =
      s.bytesWritten3 + 4 * ((size + 3) / 4) := by
    rw [write_buf32_spec]
  refine ⟨h1, h2, by omega, by omega, by omega, by omega, ?_, by norm_num,
    by norm_num, by norm_num, by norm_num, by norm_num, by norm_num,
    by decide⟩
  intro hd
  rw [h2]
  omega

/-- Witness for C9 at the marker push: declared size 1, 4 bytes appended. -/
theorem claim_C9_witness :
    ¬ (4 : Nat) ∣ 1
    ∧ (write_buf32 initSt [0, 0] 1).bin3.length =
        initSt.bin3.length + 4 * ((1 + 3) / 4)
    ∧ 1 + 1 ≤ 4 * ((1 + 3) / 4) :=
  ⟨by decide, (claim_C9_word_granularity initSt [0, 0] 1).1,
    (claim_C9_word_granularity initSt [0, 0] 1).2.2.2.2.1 (by decide)⟩

/-! ## Claim C10: the companion descriptor's bMaxBurst encoding -/

/-- C10: `add_endpoint` writes `max_burst - 1` in `u8` arithmetic — i.e.
`(max_burst + 255) % 256` — as the companion descriptor's bMaxBurst byte
(offset 9 from the endpoint's start in the USB3 buffer): a caller-supplied
burst count of 0 wraps to 255, any positive count `b < 256` encodes as
`b - 1`; in the compiled run both endpoints pass 16 and the persisted
companion bytes are 15. -/
theorem claim_C10_companion_max_burst (s : St) (idx dir attrib max_pkt
    interval max_burst attrib_3 bytes_per_interval : Nat)
    (hlen : s.buf3.length = 1024) (hz : s.z + 10 ≤ 1024)
    (hmb : max_burst < 256) :
    (add_endpoint s idx dir attrib max_pkt interval max_burst attrib_3
        bytes_per_interval).buf3.getD (s.z + 9) 0 = (max_burst + 255) % 256
    ∧ (max_burst = 0 →
        (add_endpoint s idx dir attrib max_pkt interval max_burst attrib_3
          bytes_per_interval).buf3.getD (s.z + 9) 0 = 255)
    ∧ (1 ≤ max_burst →
        (add_endpoint s idx dir attrib max_pkt interval max_burst attrib_3
          bytes_per_interval).buf3.getD (s.z + 9) 0 = max_burst - 1)
    ∧ mainRun.bin3.getD 47 0 = 15 ∧ mainRun.bin3.getD 60 0 = 15 := by
  have key : (add_endpoint s idx dir attrib max_pkt interval max_burst
      attrib_3 bytes_per_interval).buf3.getD (s.z + 9) 0 =
      (max_burst + 255) % 256 := by
    simp only [add_endpoint, pushA, pushZ]
    rw [getD_set_ne _ _ _ _ _ (by omega),
      getD_set_ne _ _ _ _ _ (by omega),
      getD_set_ne _ _ _ _ _ (by omega),
      show s.z + 7 + 1 + 1 = s.z + 9 by omega,
      getD_set_self _ _ _ _ (by
        simp only [List.length_set, length_storeAt, hlen]; omega)]
  refine ⟨key, fun h0 => ?_, fun h1 => ?_, by decide, by decide⟩
  · rw [key]; omega
  · rw [key]; omega

/-- Witness for C10: after `add_config_start` the buffer has extent 1024 and
the write position is 18; a caller-supplied `max_burst = 0` yields 255. -/
theorem claim_C10_witness :
    (add_config_start initSt 0x300 0x80 500 2).buf3.length = 1024
    ∧ (add_config_start initSt 0x300 0x80 500 2).z + 10 ≤ 1024
    ∧ (add_endpoint (add_config_start initSt 0x300 0x80 500 2)
        1 1 2 512 1 0 0 0).buf3.getD
        ((add_config_start initSt 0x300 0x80 500 2).z + 9) 0 = 255 :=
  ⟨by decide, by decide,
    (claim_C10_companion_max_burst (add_config_start initSt 0x300 0x80 500 2)
      1 1 2 512 1 0 0 0 (by decide) (by decide) (by decide)).2.1 rfl⟩

/-! ## Claim C7: string descriptors -/

theorem length_wideBytes (str : List Nat) :
    (wideBytes str).length = 2 * str.length := by
  induction str with
  | nil => rfl
  | cons c str ih =>
    show ([c % 256, 0] ++ wideBytes str).length = 2 * (str.length + 1)
    simp only [List.length_append, List.length_cons, List.length_nil, ih]
    omega

theorem wideBytes_eq (str : List Nat) (hc : ∀ c ∈ str, c < 256) :
    wideBytes str = str.flatMap fun c => [c, 0] := by
  induction str with
  | nil => rfl
  | cons c str ih =>
    have hcc : c < 256 := hc c (by simp)
    have hrest := ih fun x hx => hc x (by simp [hx])
    show [c % 256, 0] ++ wideBytes str = [c, 0] ++ str.flatMap fun c => [c, 0]
    rw [Nat.mod_eq_of_lt hcc, hrest]

theorem mem_wideBytes_lt (str : List Nat) :
    ∀ b ∈ wideBytes str, b < 256 := by
  induction str with
  | nil =>
    intro b hb
    exact absurd (hb : b ∈ ([] : List Nat)) (List.not_mem_nil b)
  | cons c str ih =>
    intro b hb
    have hb2 : b ∈ [c % 256, 0] ++ wideBytes str := hb
    rcases List.mem_append.mp hb2 with h | h
    · have h2 : b = c % 256 ∨ b = 0 := by simpa using h
      rcases h2 with rfl | rfl
      · exact Nat.mod_lt _ (by omega)
      · omega
    · exact ih b h

theorem map_mod_of_lt (l : List Nat) (h : ∀ x ∈ l, x < 256) :
    l.map (· % 256) = l := by
  induction l with
  | nil => rfl
  | cons a l ih =>
    simp only [List.map_cons, List.cons.injEq]
    exact ⟨Nat.mod_eq_of_lt (h a (by simp)),
      ih fun x hx => h x (by simp [hx])⟩

theorem take_two_set (l : List Nat) (v0 v1 : Nat) (h : 2 ≤ l.length) :
    ((l.set 0 v0).set 1 v1).take 2 = [v0, v1] := by
  cases l with
  | nil => simp at h
  | cons a l =>
    cases l with
    | nil => simp at h
    | cons b l => rfl

/-- C7: for index ≥ 1 over single-byte characters, `add_string` pushes to
the USB2 stream exactly the length byte `2 + 2*character_count`, the type
byte 0x03, and each character widened to a 2-byte unit (low byte the
character, high byte zero); for index 0 it pushes exactly 4 bytes: the
2-byte header `[4, 0x03]` followed by the 2 raw language-code bytes. -/
theorem claim_C7_string_descriptor (s : St) (idx : Nat) (str : List Nat)
    (hc : ∀ c ∈ str, c < 256) :
    (1 ≤ idx → str.length ≤ 126 →
      (add_string s idx str).bin2 =
        s.bin2 ++ (2 + 2 * str.length) :: 0x03 ::
          str.flatMap (fun c => [c, 0])
      ∧ (add_string s idx str).bin2.length =
          s.bin2.length + (2 + 2 * str.length))
    ∧ (idx = 0 → 2 ≤ str.length →
      (add_string s idx str).bin2 = s.bin2 ++ 4 :: 0x03 :: str.take 2
      ∧ (add_string s idx str).bin2.length = s.bin2.length + 4) := by
  constructor
  · intro hidx hlen
    have hb : (idx == 0) = false := beq_eq_false_iff_ne.mpr (by omega)
    have hp : 0 < idx := by omega
    have hmain : (add_string s idx str).bin2 =
        s.bin2 ++ (2 + 2 * str.length) :: 0x03 ::
          str.flatMap (fun c => [c, 0]) := by
      simp only [add_string, hb, Bool.false_eq_true, if_false, if_pos hp,
        pushA, print_offsets, write_buf, write_buf8, write_buf32_spec,
        Nat.add_sub_cancel]
      have htk : (wideBytes str).take (str.length * 2) = wideBytes str := by
        rw [show str.length * 2 = 2 * str.length by ring, ← length_wideBytes,
          List.take_length]
      rw [htk]
      have hst : storeAt
          (((List.replicate 1024 0).set 0 ((str.length * 2 + 2) % 256)).set
            (0 + 1) (3 % 256)) (0 + 1 + 1) (wideBytes str) =
          [(str.length * 2 + 2) % 256, 3 % 256] ++ wideBytes str ++
            (((List.replicate 1024 0).set 0
              ((str.length * 2 + 2) % 256)).set (0 + 1) (3 % 256)).drop
              (2 + (wideBytes str).length) := by
        have hb2 : 0 + 1 + 1 + (wideBytes str).length ≤
            ((((List.replicate 1024 0).set 0
              ((str.length * 2 + 2) % 256)).set (0 + 1) (3 % 256))).length := by
          simp only [List.length_set, List.length_replicate, length_wideBytes]
          omega
        rw [storeAt_eq _ _ _ hb2,
          map_mod_of_lt _ (mem_wideBytes_lt str)]
        have := take_two_set (List.replicate 1024 0)
          ((str.length * 2 + 2) % 256) (3 % 256) (by simp)
        simp only [show (0 : Nat) + 1 = 1 by omega,
          show (0 : Nat) + 1 + 1 = 2 by omega] at this ⊢
        rw [this]
      simp only [show (0 : Nat) + 1 = 1 by omega,
        show (0 : Nat) + 1 + 1 = 2 by omega] at hst ⊢
      rw [hst]
      have hrb : readBytes
          ([(str.length * 2 + 2) % 256, 3 % 256] ++ wideBytes str ++
            (((List.replicate 1024 0).set 0
              ((str.length * 2 + 2) % 256)).set 1 (3 % 256)).drop
              (2 + (wideBytes str).length)) 0 (str.length * 2 + 2) =
          (2 + 2 * str.length) :: 0x03 :: str.flatMap (fun c => [c, 0]) := by
        rw [readBytes_eq_take _ _ (by
          simp only [List.length_append, List.length_cons, List.length_nil,
            List.length_drop, List.length_set, List.length_replicate,
            length_wideBytes]
          omega)]
        rw [@List.take_left' Nat
          ([(str.length * 2 + 2) % 256, 3 % 256] ++ wideBytes str) _ _
          (show ([(str.length * 2 + 2) % 256, 3 % 256] ++
              wideBytes str).length = str.length * 2 + 2 by
            simp only [List.length_append, List.length_cons, List.length_nil,
              length_wideBytes]
            omega)]
        rw [List.map_append, map_mod_of_lt _ (mem_wideBytes_lt str),
          wideBytes_eq str hc]
        have hlt : str.length * 2 + 2 < 256 := by omega
        simp only [List.map_cons, List.map_nil,
          Nat.mod_mod_of_dvd _ (dvd_refl 256), Nat.mod_eq_of_lt hlt]
        simp only [List.cons_append, List.nil_append, List.cons.injEq]
        exact ⟨by omega, trivial⟩
      rw [hrb]
    refine ⟨hmain, ?_⟩
    rw [hmain]
    simp only [List.length_append, List.length_cons]
    have : (str.flatMap fun c => [c, 0]).length = 2 * str.length := by
      rw [← wideBytes_eq str hc, length_wideBytes]
    omega
  · intro hidx hlen
    subst hidx
    have hmain : (add_string s 0 str).bin2 =
        s.bin2 ++ 4 :: 0x03 :: str.take 2 := by
      simp only [add_string, pushA, print_offsets, write_buf, write_buf8,
        write_buf32_spec, beq_self_eq_true, eq_self_iff_true, if_true,
        if_neg (Nat.lt_irrefl 0), show (4 : Nat) - 2 = 2 from rfl]
      have htk2 : ((str.take 2).map (· % 256)).take 2 =
          (str.take 2).map (· % 256) := by
        apply List.take_of_length_le
        simp only [List.length_map, List.length_take]
        omega
      have hmm : (str.take 2).map (· % 256) = str.take 2 :=
        map_mod_of_lt _ fun x hx => hc x (List.take_subset 2 str hx)
      rw [htk2, hmm]
      have hst : storeAt
          (((List.replicate 1024 0).set 0 (4 % 256)).set 1 (3 % 256)) 2
          (str.take 2) =
          [4 % 256, 3 % 256] ++ str.take 2 ++
            (((List.replicate 1024 0).set 0 (4 % 256)).set 1 (3 % 256)).drop
              (2 + (str.take 2).length) := by
        have hb2 : 2 + (str.take 2).length ≤
            ((((List.replicate 1024 0).set 0 (4 % 256)).set 1
              (3 % 256))).length := by
          simp only [List.length_set, List.length_replicate, List.length_take]
          omega
        rw [storeAt_eq _ _ _ hb2,
          map_mod_of_lt _ fun x hx => hc x (List.take_subset 2 str hx),
          take_two_set (List.replicate 1024 0) (4 % 256) (3 % 256) (by simp)]
      rw [hst]
      have hlt2 : (str.take 2).length = 2 := by
        simp only [List.length_take]
        omega
      rw [readBytes_eq_take _ _ (by
        simp only [List.length_append, List.length_cons, List.length_nil,
          List.length_drop, List.length_set, List.length_replicate, hlt2]
        omega)]
      rw [@List.take_left' Nat ([4 % 256, 3 % 256] ++ str.take 2) _ _
        (show ([4 % 256, 3 % 256] ++ str.take 2).length = 4 by
          simp only [List.length_append, List.length_cons, List.length_nil,
            hlt2])]
      rw [List.map_append,
        map_mod_of_lt _ fun x hx => hc x (List.take_subset 2 str hx)]
      norm_num
    refine ⟨hmain, ?_⟩
    rw [hmain]
    simp only [List.length_append, List.length_cons, List.length_take]
    omega

/-- Witness for C7: a 2-character string at index 1 and the language-code
string at index 0. -/
theorem claim_C7_witness :
    (add_string initSt 1 [72, 105]).bin2 = [6, 3, 72, 0, 105, 0]
    ∧ (add_string initSt 0 [9, 4]).bin2 = [4, 3, 9, 4] :=
  ⟨((claim_C7_string_descriptor initSt 1 [72, 105] (by decide)).1
      (by decide) (by decide)).1,
    ((claim_C7_string_descriptor initSt 0 [9, 4] (by decide)).2 rfl
      (by decide)).1⟩

/-! ## Claim C1: the exported offsets against the stream write offsets -/

/-- C1 shows a code bug: when the `DEVICE_QUAL` entry is recorded, the USB2
stream has already persisted 18 bytes (the descriptor's first byte is at
offset 18), but the entry records `i_2`, which no code path ever
increments: the recorded value is 0.  Over the whole fixed run every
exported value is 0 except the two deliberate length hacks (`CONFIG_LEN`
41/53 and `BOS_LEN` 22), while the USB2 write counter has advanced to 173
— so the exported values do not point at the descriptors' first bytes. -/
theorem claim_C1_offset_export_bug :
    (add_device_descr_pre
        { initSt with i2 := 0, i3 := 0, bitwidth2 := 8, bitwidth3 := 7 }
        0x300 0xFF 0xFF 0xFF 64 0x1D50 0x605A 0x1 1 2 3 1).bytesWritten2 = 18
    ∧ (add_device_descr_pre
        { initSt with i2 := 0, i3 := 0, bitwidth2 := 8, bitwidth3 := 7 }
        0x300 0xFF 0xFF 0xFF 64 0x1D50 0x605A 0x1 1 2 3 1).bin2.length = 18
    ∧ (add_device_qual
        (add_device_descr_pre
          { initSt with i2 := 0, i3 := 0, bitwidth2 := 8, bitwidth3 := 7 }
          0x300 0xFF 0xFF 0xFF 64 0x1D50 0x605A 0x1 1 2 3 1)
        0x300 0xFF 0xFF 0xFF 64 1).vh.getD
        (add_device_descr_pre
          { initSt with i2 := 0, i3 := 0, bitwidth2 := 8, bitwidth3 := 7 }
          0x300 0xFF 0xFF 0xFF 64 0x1D50 0x605A 0x1 1 2 3 1).vh.length
        ⟨0, 0, "", 0⟩ = ⟨2, 7, "DEVICE_QUAL", 0⟩
    ∧ (0 : Nat) ≠ 18
    ∧ (mainPrePad 8 7).vh.map (fun e => e.value) =
        [0, 0, 0, 0, 0, 41, 53, 0, 22, 0, 0, 0, 0, 0, 0, 0, 0, 0, 0, 0, 0,
          0, 0]
    ∧ (mainPrePad 8 7).bytesWritten2 = 173
    ∧ (mainPrePad 8 7).bytesWritten3 = 212 := by
  decide

/-! ## Claim C8: offset table entry order -/

/-- C8: the named-constant header of the fixed run contains, in exact
emission order, the entries DEVICE, DEVICE_QUAL, CONFIG, CONFIG_LEN, BOS,
BOS_LEN, STRING0-STRING3, CONFUNSET, CONFSET, EOF (a USB2 and a USB3 line,
adjacent, for dual-target entries; the BOS and EOF names carry the
source's trailing-space padding, stripped in the second list), and
recording only ever appends to the table — entries are never revised. -/
theorem claim_C8_offset_table_order :
    mainRun.vh.map (fun e => (e.target, e.name)) =
      [(2, "DEVICE"), (3, "DEVICE"), (2, "DEVICE_QUAL"), (2, "CONFIG"),
        (3, "CONFIG"), (2, "CONFIG_LEN"), (3, "CONFIG_LEN"), (3, "BOS    "),
        (3, "BOS_LEN"), (2, "STRING0"), (3, "STRING0"), (2, "STRING1"),
        (3, "STRING1"), (2, "STRING2"), (3, "STRING2"), (2, "STRING3"),
        (3, "STRING3"), (2, "CONFUNSET"), (3, "CONFUNSET"), (2, "CONFSET"),
        (3, "CONFSET"), (2, "EOF     "), (3, "EOF     ")]
    ∧ mainRun.vh.map
        (fun e => (e.name.data.takeWhile (fun c => c ≠ ' ')).asString) =
      ["DEVICE", "DEVICE", "DEVICE_QUAL", "CONFIG", "CONFIG", "CONFIG_LEN",
        "CONFIG_LEN", "BOS", "BOS_LEN", "STRING0", "STRING0", "STRING1",
        "STRING1", "STRING2", "STRING2", "STRING3", "STRING3", "CONFUNSET",
        "CONFUNSET", "CONFSET", "CONFSET", "EOF", "EOF"]
    ∧ (∀ (t : St) (name : String) (f2 f3 : Bool),
        t.vh <+: (print_offsets t name f2 f3).vh) := by
  refine ⟨by decide, by decide, ?_⟩
  intro t name f2 f3
  simp only [print_offsets, List.append_assoc]
  exact List.prefix_append _ _

/-- Witness for C2 at the driver's configuration group: two bulk
endpoints, backpatched totals 41 (USB2) and 53 (USB3). -/
theorem claim_C2_witness :
    initSt.buf2.length = 1024 ∧ initSt.buf3.length = 1024
    ∧ (configGroup initSt 0x300 0x80 500 2
        [⟨1, 1, 2, 512, 0x1, 16, 0x00, 0⟩,
          ⟨2, 0, 2, 512, 0x1, 16, 0x00, 0⟩]).bytesPending2 = 41
    ∧ (configGroup initSt 0x300 0x80 500 2
        [⟨1, 1, 2, 512, 0x1, 16, 0x00, 0⟩,
          ⟨2, 0, 2, 512, 0x1, 16, 0x00, 0⟩]).bytesPending3 = 53 :=
  ⟨by decide, by decide,
    (claim_C2_group_length_backpatch initSt 0x300 0x80 500 2
      [⟨1, 1, 2, 512, 0x1, 16, 0x00, 0⟩, ⟨2, 0, 2, 512, 0x1, 16, 0x00, 0⟩]
      (by decide) (by decide) (by decide)).2.2.1,
    (claim_C2_group_length_backpatch initSt 0x300 0x80 500 2
      [⟨1, 1, 2, 512, 0x1, 16, 0x00, 0⟩, ⟨2, 0, 2, 512, 0x1, 16, 0x00, 0⟩]
      (by decide) (by decide) (by decide)).2.2.2.1⟩
